import Mathlib

/-!
# ScholaRoute allocation engine — verification development

Shallow embedding of the allocation engine in `schola.py` (module-level
utilities, configuration tables, and the methods of `AllocationSession`),
together with theorems checking the repository's specification against it.

Modelling conventions:
* Python `float` is modelled as `ℚ`.  Subject scores, catalogue bounds and
  aggregates are exact rationals; `round(x, 2)` is modelled as
  `⌊100·x + 1/2⌋ / 100` (`round2`).
* Python `str` is modelled as `String`; `str.strip()` and `str.lower()` are
  modelled by the char-list functions `pyStrip` and `pyLower` (Lean's
  built-in `String.trim`/`String.toLower` are not kernel-reducible, so the
  model re-implements the same operations by structural recursion).
* Python `dict` is modelled as an association list looked up by `alookup`
  (first matching key), matching `dict.get`/`in` semantics.
* A pandas cell is modelled per use site: a subject cell is
  `Option ℚ` (`none` = the cell is missing, NaN, blank or non-numeric, all
  of which the source coerces to `0.0`), a choice cell is `Option String`
  (`none` = the cell is missing or NaN, `some s` = `str(cell)`).
-/

/-- Model of Python `str.strip()` on the underlying character list:
drop whitespace from both ends. -/
def pyStripChars (l : List Char) : List Char :=
  ((l.dropWhile Char.isWhitespace).reverse.dropWhile Char.isWhitespace).reverse

/-- Model of Python `str.strip()`. -/
def pyStrip (s : String) : String := String.mk (pyStripChars s.data)

/-- Model of Python `str.lower()` (per-character lowercasing). -/
def pyLower (s : String) : String := String.mk (s.data.map Char.toLower)

/-- Kernel-computable rational addition (`Rat.add` is not reducible);
`qadd_eq` below proves it agrees with `+`. -/
def qadd (a b : ℚ) : ℚ := mkRat (a.num * b.den + b.num * a.den) (a.den * b.den)

/-- Kernel-computable sum of a list of rationals; agrees with `List.sum`. -/
def qsum (l : List ℚ) : ℚ := l.foldr qadd 0

/-- Floor of a rational (`Int.fdiv` is floor division and `x.den > 0`). -/
def qfloor (x : ℚ) : ℤ := Int.fdiv x.num x.den

/-- Model of Python `round(x, 2)`: round `x` to two decimal places.
(The tie-breaking convention of CPython's `round` on binary floats is
representation-dependent; the model rounds half up.) -/
def round2 (x : ℚ) : ℚ := mkRat (qfloor (qadd (mkRat (100 * x.num) x.den) (mkRat 1 2))) 100

/-- Association-list lookup by string key (first match), modelling Python
`dict` lookup / `dict.get` / `in`. -/
def alookup {α : Type} : List (String × α) → String → Option α
  | [], _ => none
  | p :: rest, k => if p.1 = k then some p.2 else alookup rest k

/-- First-hit scan over a list, modelling a Python `for` loop that
`return`s on its first hit and falls through otherwise. -/
def scanList {α β : Type} (f : α → Option β) : List α → Option β
  | [] => none
  | a :: l =>
    match f a with
    | some b => some b
    | none => scanList f l

/-- `SUBJECTS` from `schola.py`: the fixed 13-subject universe. -/
def SUBJECTS : List String :=
  ["English", "Mathematics", "Additional Math", "Physics", "Chemistry",
   "Biology", "History", "Geography", "Civics", "ICT", "Accounting",
   "Religion", "Commerce"]

/-- `COLUMN_ALIASES` from `schola.py`: lowercased column name → canonical
column name. -/
def COLUMN_ALIASES : List (String × String) :=
  [("student id", "Student ID"),
   ("firstname", "FirstName"), ("first name", "FirstName"),
   ("lastname", "LastName"), ("last name", "LastName"),
   ("gender", "Gender"), ("section", "Section"),
   ("choice 1", "Choice 1"), ("choice1", "Choice 1"),
   ("choice 2", "Choice 2"), ("choice2", "Choice 2"),
   ("choice 3", "Choice 3"), ("choice3", "Choice 3"),
   ("english", "English"), ("mathematics", "Mathematics"),
   ("additional math", "Additional Math"),
   ("additional mathematics", "Additional Math"),
   ("add math", "Additional Math"),
   ("physics", "Physics"), ("chemistry", "Chemistry"),
   ("biology", "Biology"), ("history", "History"),
   ("geography", "Geography"), ("civics", "Civics"), ("ict", "ICT"),
   ("accounting", "Accounting"), ("religion", "Religion"),
   ("commerce", "Commerce")]

/-- The `core_required` column set of `AllocationSession.allocate`
(as a list; the source iterates a Python `set` whose order is unspecified). -/
def CORE_REQUIRED : List String :=
  ["Student ID", "FirstName", "LastName", "Gender", "Section"]

/-- `_normalize_name` from `schola.py`: `(value or "").strip()`. -/
def normalize_name (s : String) : String := pyStrip s

/-- `_norm_choice` from `schola.py`: strip, and map blank to `None`. -/
def norm_choice (v : String) : Option String :=
  if pyStrip v = "" then none else some (pyStrip v)

/-- `_lower` from `schola.py`: `(s or "").strip().lower()` on a string. -/
def lowerStr (s : String) : String := pyLower (pyStrip s)

/-- `_lower` from `schola.py` applied to an `Optional[str]`
(`None` is coalesced to `""` by `(s or "")`). -/
def lowerOpt : Option String → String
  | none => ""
  | some s => lowerStr s

/-- One column name's remapping in `_remap_columns`:
`COLUMN_ALIASES.get(col.strip().lower(), col)`. -/
def remapCol (c : String) : String := (alookup COLUMN_ALIASES (lowerStr c)).getD c

/-- The deduplication loop of `_collect_choices`: keep an entry whose
`_lower` key is unseen, recording the key (a `None` entry has key `""`). -/
def dedupLoop : List (Option String) → List String → List (Option String)
  | [], _ => []
  | c :: rest, seen =>
    if lowerOpt c ∈ seen then dedupLoop rest seen
    else c :: dedupLoop rest (lowerOpt c :: seen)

/-- `_collect_choices` from `schola.py`.  The input list holds the three
choice cells in order (`none` = the column is absent for this row or the
cell is NaN, and is dropped by the comprehension's `pd.notna` guard;
`some v` = `str(cell)`).  Present cells pass through `_norm_choice` —
so a blank cell yields a `none` *entry* — and are then deduplicated by
their `_lower` key. -/
def collect_choices (cells : List (Option String)) : List (Option String) :=
  dedupLoop (cells.filterMap (fun cell => cell.map norm_choice)) []

/-- `_extract_scores` from `schola.py`: a dict keyed by the 13 subjects;
a missing/NaN/blank/non-numeric cell (`none`) contributes `0.0`. -/
def extract_scores (cells : String → Option ℚ) : List (String × ℚ) :=
  SUBJECTS.map (fun subj => (subj, (cells subj).getD 0))

/-- `scores.get(subj, 0.0)` on a scores dict. -/
def dictGetD (d : List (String × ℚ)) (k : String) : ℚ := (alookup d k).getD 0

/-- `_aggregate` from `schola.py`: sum of `scores.get(s, 0.0)` over
`SUBJECTS`, rounded to 2 decimal places. -/
def aggregate (d : List (String × ℚ)) : ℚ :=
  round2 (qsum (SUBJECTS.map (fun s => dictGetD d s)))

/-- A course of the catalogue: a name, minimum bounds and maximum bounds
(`min_scores` / `max_scores`; a missing `"aggregate"`/subject key means no
constraint). -/
structure Course where
  name : String
  min_scores : List (String × ℚ)
  max_scores : List (String × ℚ)
deriving DecidableEq

/-- A university of the catalogue: a name and its ordered course list. -/
structure University where
  name : String
  courses : List Course
deriving DecidableEq

/-- A manual override entry `{University, Course}`; either key may be
absent from the stored dict. -/
structure Override where
  university : Option String
  course : Option String
deriving DecidableEq

/-- `AllocationSession.load_universities` (post-`json.load` part): trim
every university and course name.  (`setdefault` of `min_scores` /
`max_scores` is implicit in the `Course` structure.) -/
def loadUniversities (data : List University) : List University :=
  data.map (fun uni =>
    { name := normalize_name uni.name
      courses := uni.courses.map (fun c => { c with name := normalize_name c.name }) })

/-- `AllocationSession.is_eligible_for_course`: fail if an `"aggregate"`
minimum exceeds the computed aggregate, if any non-`"aggregate"` minimum
exceeds the student's score (default `0.0`), or if any maximum is exceeded. -/
def is_eligible_for_course (scores : List (String × ℚ)) (course : Course) : Bool :=
  (match alookup course.min_scores "aggregate" with
   | some m => !(decide (aggregate scores < m))
   | none => true)
  && course.min_scores.all (fun p => decide (p.1 = "aggregate") || !(decide (dictGetD scores p.1 < p.2)))
  && course.max_scores.all (fun p => !(decide (dictGetD scores p.1 > p.2)))

/-- The `filter_names and ...` truthiness test with the membership test of
`scan_courses`: a course is kept when the filter is `None` or the empty
list, or when `_lower(cname)` is among the `_lower`ed filter entries. -/
def courseKeep (filter_names : Option (List (Option String))) (cname : String) : Bool :=
  match filter_names with
  | none => true
  | some fns => if fns = [] then true else decide (lowerStr cname ∈ fns.map lowerOpt)

/-- `scan_courses` from `AllocationSession.best_fit`: first
`(university, course)` pair, in catalogue order, passing the name filter
and the eligibility predicate. -/
def scan_courses (unis : List University) (scores : List (String × ℚ))
    (filter_names : Option (List (Option String))) : Option (String × String) :=
  scanList (fun uni =>
    scanList (fun course =>
      if courseKeep filter_names course.name && is_eligible_for_course scores course
      then some (uni.name, course.name) else none) uni.courses) unis

/-- `AllocationSession.best_fit`: override check, then one
`scan_courses([ch])` per collected choice, then an unfiltered fallback
scan, then the sentinel. -/
def best_fit (overrides : List (String × Override)) (unis : List University)
    (sid : String) (scores : List (String × ℚ)) (choices : List (Option String)) :
    String × String :=
  match alookup overrides (pyStrip sid) with
  | some ov =>
    (normalize_name (ov.university.getD "Manual Override"),
     normalize_name (ov.course.getD "Manual Override"))
  | none =>
    match scanList (fun ch => scan_courses unis scores (some [ch])) choices with
    | some hit => hit
    | none =>
      match scan_courses unis scores none with
      | some hit => hit
      | none => ("Not Allocated", "N/A")

/-- One roster row as the engine reads it.  Identity fields hold
`str(row[k])` for the five identity columns; `subjectCells` holds, per
subject column, the parsed numeric cell value (`none` = missing, NaN,
blank or non-numeric, all coerced to `0.0` by `_extract_scores`);
`choice1..3` hold `str(cell)` for the three choice columns (`none` =
column absent for this row or NaN cell). -/
structure Row where
  studentID : String
  firstName : String
  lastName : String
  gender : String
  sectionName : String
  subjectCells : String → Option ℚ
  choice1 : Option String
  choice2 : Option String
  choice3 : Option String

/-- The uploaded roster: the spreadsheet's column names (before alias
remapping) and its rows in input order. -/
structure Roster where
  columns : List String
  rows : List Row

/-- One allocation result row as appended by `AllocationSession.allocate`:
trimmed identity, the scores dict, the aggregate, the three (blank-padded)
collected choices, and the assigned university/course. -/
structure ResultRow where
  studentID : String
  firstName : String
  lastName : String
  gender : String
  sectionName : String
  scores : List (String × ℚ)
  aggregate : ℚ
  choice1 : Option String
  choice2 : Option String
  choice3 : Option String
  university : String
  course : String
deriving DecidableEq

/-- The mutable state of an `AllocationSession`: the catalogue, the
override mapping, and the last computed result set (`allocations_df`). -/
structure Session where
  universities : List University
  overrides : List (String × Override)
  allocations_df : Option (List ResultRow)
deriving DecidableEq

/-- The roster's column names after `_remap_columns`. -/
def remappedCols (roster : Roster) : List String := roster.columns.map remapCol

/-- `missing_core` of `AllocationSession.allocate`: the required identity
columns absent after alias resolution. -/
def missingCols (roster : Roster) : List String :=
  CORE_REQUIRED.filter (fun c => decide (c ∉ remappedCols roster))

/-- The effective choice cell seen by `_collect_choices`: a choice column
absent from the sheet is filled with the blank string by
`df[c] = ""` in `allocate`, so every row reads `some ""` there. -/
def effChoice (cols : List String) (c : String) (v : Option String) : Option String :=
  if c ∈ cols then v else some ""

/-- The per-row body of the loop in `AllocationSession.allocate`: trim the
identity fields, extract scores, compute the aggregate, collect choices,
run `best_fit`, and build the result row.  (A subject column absent from
the sheet is filled with `0` by `df[subj] = 0`, which coincides with the
`none ↦ 0.0` coercion of `extract_scores`, so `subjectCells` is read
directly.) -/
def processRow (unis : List University) (overrides : List (String × Override))
    (cols : List String) (row : Row) : ResultRow :=
  let scores := extract_scores row.subjectCells
  let choices := collect_choices
    [effChoice cols "Choice 1" row.choice1,
     effChoice cols "Choice 2" row.choice2,
     effChoice cols "Choice 3" row.choice3]
  let hit := best_fit overrides unis (normalize_name row.studentID) scores choices
  { studentID := normalize_name row.studentID
    firstName := normalize_name row.firstName
    lastName := normalize_name row.lastName
    gender := normalize_name row.gender
    sectionName := normalize_name row.sectionName
    scores := scores
    aggregate := aggregate scores
    choice1 := choices.getD 0 (some "")
    choice2 := choices.getD 1 (some "")
    choice3 := choices.getD 2 (some "")
    university := hit.1
    course := hit.2 }

/-- `AllocationSession.allocate`.  Inputs: the session (`self`), the
decoded roster, the decoded catalogue file contents (`uni_json_path`),
and the overrides argument (`none` = Python `None`, coalesced to `{}`).
The session stores the overrides and the loaded catalogue, then either
aborts with the list of missing required columns (modelling
`ValueError(f"Missing required columns: {', '.join(missing_core)}")`,
whose message names exactly the entries of that list) or maps the row
loop over the roster and stores the result as `allocations_df`. -/
def allocate (s : Session) (roster : Roster) (uniData : List University)
    (ov : Option (List (String × Override))) :
    Session × Except (List String) (List ResultRow) :=
  let ovs := ov.getD []
  let unis := loadUniversities uniData
  if missingCols roster = [] then
    let res := roster.rows.map (processRow unis ovs (remappedCols roster))
    ({ universities := unis, overrides := ovs, allocations_df := some res },
     Except.ok res)
  else
    ({ universities := unis, overrides := ovs, allocations_df := s.allocations_df },
     Except.error (missingCols roster))

/-! ## Specification-side reference definitions

These follow the wording of the specification (for refinement-style
claims), to be compared with the source-derived definitions above. -/

/-- Spec §4.3 step 2, inner part: for one choice, the first course in
catalogue order (universities in order, courses in order within each)
whose name matches the choice case-insensitively and which passes the
eligibility predicate. -/
def findChoiceMatch (unis : List University) (scores : List (String × ℚ))
    (ch : String) : Option (String × String) :=
  scanList (fun uni =>
    scanList (fun course =>
      if lowerStr course.name = lowerStr ch ∧ is_eligible_for_course scores course = true
      then some (uni.name, course.name) else none) uni.courses) unis

/-- Spec §4.3 step 2: iterate the choices in declared order; the first
choice with an eligible name-matching course decides. -/
def choicePriorityScan (unis : List University) (scores : List (String × ℚ))
    (chs : List String) : Option (String × String) :=
  scanList (findChoiceMatch unis scores) chs

/-- Spec §4.3 step 3: the fallback scan — first eligible course in
catalogue order, with no name filter. -/
def fallbackScan (unis : List University) (scores : List (String × ℚ)) :
    Option (String × String) :=
  scanList (fun uni =>
    scanList (fun course =>
      if is_eligible_for_course scores course = true
      then some (uni.name, course.name) else none) uni.courses) unis

/-- Spec-side deduplication of choice values: keep a value whose
case-folded form is unseen, preserving order and first-seen casing. -/
def dedupS : List String → List String → List String
  | [], _ => []
  | s :: rest, seen =>
    if lowerStr s ∈ seen then dedupS rest seen
    else s :: dedupS rest (lowerStr s :: seen)

/-- Spec §4.1 choice normalization as worded: drop blank or missing slots
entirely, then deduplicate the remaining (trimmed) values
case-insensitively keeping the first occurrence and its casing. -/
def specNormalizeChoices (cells : List (Option String)) : List String :=
  dedupS (cells.filterMap (fun cell => cell.bind norm_choice)) []

/-! ## Helper lemmas -/

lemma dropWhile_self_idem {α : Type} (p : α → Bool) (l : List α) :
    (l.dropWhile p).dropWhile p = l.dropWhile p := by
  induction l with
  | nil => simp
  | cons a l ih =>
    by_cases h : p a
    · simp [List.dropWhile_cons, h, ih]
    · simp [List.dropWhile_cons, h]

lemma head_dropWhile_false {α : Type} (p : α → Bool) (l : List α) (x : α) (t : List α)
    (h : l.dropWhile p = x :: t) : p x = false := by
  induction l with
  | nil => simp at h
  | cons a l ih =>
    by_cases ha : p a
    · rw [List.dropWhile_cons, if_pos ha] at h
      exact ih h
    · rw [List.dropWhile_cons, if_neg ha] at h
      cases h
      exact Bool.eq_false_iff.mpr ha

lemma rar_prefix {α : Type} (p : α → Bool) (l : List α) :
    (l.reverse.dropWhile p).reverse <+: l := by
  rw [← List.reverse_suffix]
  simpa using List.dropWhile_suffix (l := l.reverse) p

/-- Stripping whitespace from both ends is idempotent. -/
lemma pyStripChars_idem (l : List Char) :
    pyStripChars (pyStripChars l) = pyStripChars l := by
  have hstep1 :
      (((l.dropWhile Char.isWhitespace).reverse.dropWhile Char.isWhitespace).reverse).dropWhile
          Char.isWhitespace
        = ((l.dropWhile Char.isWhitespace).reverse.dropWhile Char.isWhitespace).reverse := by
    cases h : ((l.dropWhile Char.isWhitespace).reverse.dropWhile Char.isWhitespace).reverse with
    | nil => simp
    | cons x t =>
      have hpre : ((l.dropWhile Char.isWhitespace).reverse.dropWhile Char.isWhitespace).reverse
          <+: l.dropWhile Char.isWhitespace := rar_prefix Char.isWhitespace _
      rw [h] at hpre
      obtain ⟨r, hr⟩ := hpre
      have hx : Char.isWhitespace x = false :=
        head_dropWhile_false Char.isWhitespace l x (t ++ r) (by simpa using hr.symm)
      rw [List.dropWhile_cons, if_neg (by simp [hx])]
  unfold pyStripChars
  rw [hstep1, List.reverse_reverse, dropWhile_self_idem]

lemma pyStrip_idem (s : String) : pyStrip (pyStrip s) = pyStrip s :=
  congrArg String.mk (pyStripChars_idem s.data)

lemma data_eq_nil_iff (s : String) : s.data = [] ↔ s = "" := by
  cases s with
  | mk d =>
    constructor
    · intro h
      subst h
      rfl
    · intro h
      rw [h]

lemma pyLower_ne_empty (s : String) (h : s ≠ "") : pyLower s ≠ "" := by
  intro hc
  apply h
  rw [← data_eq_nil_iff] at hc ⊢
  simpa [pyLower] using hc

/-- If `_norm_choice` keeps a value, the kept value has a nonempty
`_lower` key. -/
lemma lowerStr_of_norm_choice (v t : String) (h : norm_choice v = some t) :
    lowerStr t ≠ "" := by
  unfold norm_choice at h
  by_cases hv : pyStrip v = ""
  · simp [hv] at h
  · rw [if_neg hv] at h
    cases h
    unfold lowerStr
    rw [pyStrip_idem]
    exact pyLower_ne_empty _ hv

/-- `qadd` agrees with rational addition. -/
lemma qadd_eq (a b : ℚ) : qadd a b = a + b := by
  unfold qadd
  rw [Rat.mkRat_eq_div]
  have ha : ((a.den : ℚ)) ≠ 0 := by
    exact_mod_cast a.den_nz
  have hb : ((b.den : ℚ)) ≠ 0 := by
    exact_mod_cast b.den_nz
  push_cast
  conv_rhs => rw [← Rat.num_div_den a, ← Rat.num_div_den b, div_add_div _ _ ha hb]
  ring

/-- `qsum` agrees with `List.sum`. -/
lemma qsum_eq (l : List ℚ) : qsum l = l.sum := by
  induction l with
  | nil => rfl
  | cons a l ih =>
    unfold qsum at ih ⊢
    rw [List.foldr_cons, qadd_eq, ih, List.sum_cons]

lemma scanList_congr {α β : Type} (f g : α → Option β) (l : List α)
    (h : ∀ a ∈ l, f a = g a) : scanList f l = scanList g l := by
  induction l with
  | nil => rfl
  | cons a l ih =>
    unfold scanList
    rw [h a (List.mem_cons_self a l), ih (fun x hx => h x (List.mem_cons_of_mem a hx))]

lemma scanList_map {α β γ : Type} (f : β → Option γ) (g : α → β) (l : List α) :
    scanList f (l.map g) = scanList (fun x => f (g x)) l := by
  induction l with
  | nil => rfl
  | cons a l ih =>
    simp only [List.map_cons, scanList]
    rw [ih]

/-- Looking up a key in a dict built over a key list by `fun s => (s, f s)`. -/
lemma alookup_graph {α : Type} (f : String → α) (l : List String) (k : String) :
    alookup (l.map (fun s => (s, f s))) k = if k ∈ l then some (f k) else none := by
  induction l with
  | nil => simp [alookup]
  | cons a l ih =>
    unfold alookup
    by_cases ha : a = k
    · subst ha
      simp
    · simp only [List.map_cons, ih, List.mem_cons]
      rw [if_neg (by simpa using ha)]
      have : (k = a ∨ k ∈ l) ↔ k ∈ l := by
        constructor
        · rintro (h | h)
          · exact absurd h.symm ha
          · exact h
        · exact Or.inr
      simp [this]

/-- The singleton-filter call `scan_courses(unis, scores, [ch])` coincides
with the spec's per-choice scan. -/
lemma scan_courses_single (unis : List University) (scores : List (String × ℚ))
    (ch : String) :
    scan_courses unis scores (some [some ch]) = findChoiceMatch unis scores ch := by
  unfold scan_courses findChoiceMatch
  apply scanList_congr
  intro uni _
  apply scanList_congr
  intro course _
  have hkeep : courseKeep (some [some ch]) course.name
      = decide (lowerStr course.name = lowerStr ch) := by
    simp [courseKeep, lowerOpt]
  rw [hkeep]
  by_cases h : lowerStr course.name = lowerStr ch
  · simp [h]
  · simp [h]

/-- The unfiltered call `scan_courses(unis, scores, None)` coincides with
the spec's fallback scan. -/
lemma scan_courses_none (unis : List University) (scores : List (String × ℚ)) :
    scan_courses unis scores none = fallbackScan unis scores := by
  unfold scan_courses fallbackScan
  apply scanList_congr
  intro uni _
  apply scanList_congr
  intro course _
  simp [courseKeep]

/-- Every `some` entry fed into the deduplication loop by
`_collect_choices` has a nonempty `_lower` key. -/
lemma collect_input_keys (cells : List (Option String)) (t : String)
    (h : some t ∈ cells.filterMap (fun cell => cell.map norm_choice)) :
    lowerStr t ≠ "" := by
  rw [List.mem_filterMap] at h
  obtain ⟨c, _, hc⟩ := h
  cases c with
  | none => simp at hc
  | some v =>
    simp only [Option.map_some', Option.some.injEq] at hc
    exact lowerStr_of_norm_choice v t hc

/-- A `none` entry is in the input to the deduplication loop iff some cell
holds a present blank value. -/
lemma collect_input_none (cells : List (Option String)) :
    none ∈ cells.filterMap (fun cell => cell.map norm_choice)
      ↔ ∃ v, some v ∈ cells ∧ pyStrip v = "" := by
  rw [List.mem_filterMap]
  constructor
  · rintro ⟨c, hc, hmap⟩
    cases c with
    | none => simp at hmap
    | some v =>
      refine ⟨v, hc, ?_⟩
      simp only [Option.map_some', Option.some.injEq] at hmap
      by_contra hv
      simp [norm_choice, hv] at hmap
  · rintro ⟨v, hv, hblank⟩
    exact ⟨some v, hv, by simp [norm_choice, hblank]⟩

/-- Correspondence between the source's deduplication loop (on optional
values) and the spec's (on the kept string values): provided every kept
value has a nonempty key and the two seen-sets agree on nonempty keys, the
non-`none` entries of the source loop are exactly the spec loop's output. -/
lemma dedupLoop_filterMap (l : List (Option String)) (sc ss : List String)
    (hl : ∀ t, some t ∈ l → lowerStr t ≠ "")
    (hseen : ∀ x, x ≠ "" → (x ∈ sc ↔ x ∈ ss)) :
    (dedupLoop l sc).filterMap id = dedupS (l.filterMap id) ss := by
  induction l generalizing sc ss with
  | nil => rfl
  | cons c rest ih =>
    cases c with
    | none =>
      simp only [dedupLoop, lowerOpt, List.filterMap_cons]
      by_cases hmem : "" ∈ sc
      · rw [if_pos hmem]
        exact ih sc ss (fun t ht => hl t (List.mem_cons_of_mem _ ht)) hseen
      · rw [if_neg hmem]
        simp only [List.filterMap_cons, id]
        exact ih ("" :: sc) ss (fun t ht => hl t (List.mem_cons_of_mem _ ht))
          (fun x hx => by
            rw [List.mem_cons]
            constructor
            · rintro (h | h)
              · exact absurd h hx
              · exact (hseen x hx).mp h
            · intro h
              exact Or.inr ((hseen x hx).mpr h))
    | some t =>
      have hk : lowerStr t ≠ "" := hl t (List.mem_cons_self _ _)
      have hks : lowerStr t ∈ sc ↔ lowerStr t ∈ ss := hseen _ hk
      simp only [dedupLoop, lowerOpt, List.filterMap_cons, id, dedupS]
      by_cases hmem : lowerStr t ∈ sc
      · rw [if_pos hmem, if_pos (hks.mp hmem)]
        exact ih sc ss (fun u hu => hl u (List.mem_cons_of_mem _ hu)) hseen
      · rw [if_neg hmem, if_neg (fun hc => hmem (hks.mpr hc))]
        simp only [List.filterMap_cons, id]
        rw [ih (lowerStr t :: sc) (lowerStr t :: ss)
          (fun u hu => hl u (List.mem_cons_of_mem _ hu))
          (fun x hx => by
            rw [List.mem_cons, List.mem_cons]
            constructor
            · rintro (h | h)
              · exact Or.inl h
              · exact Or.inr ((hseen x hx).mp h)
            · rintro (h | h)
              · exact Or.inl h
              · exact Or.inr ((hseen x hx).mpr h))]

/-- A `none` entry appears in the deduplication loop's output iff the
input contains one and the empty key is not yet seen. -/
lemma dedupLoop_none_mem (l : List (Option String)) (sc : List String)
    (hl : ∀ t, some t ∈ l → lowerStr t ≠ "") :
    (none ∈ dedupLoop l sc ↔ none ∈ l ∧ "" ∉ sc) := by
  induction l generalizing sc with
  | nil => simp [dedupLoop]
  | cons c rest ih =>
    cases c with
    | none =>
      simp only [dedupLoop, lowerOpt]
      by_cases hmem : "" ∈ sc
      · rw [if_pos hmem, ih sc (fun t ht => hl t (List.mem_cons_of_mem _ ht))]
        simp [hmem]
      · rw [if_neg hmem]
        simp [hmem]
    | some t =>
      have hk : lowerStr t ≠ "" := hl t (List.mem_cons_self _ _)
      simp only [dedupLoop, lowerOpt]
      by_cases hmem : lowerStr t ∈ sc
      · rw [if_pos hmem, ih sc (fun u hu => hl u (List.mem_cons_of_mem _ hu))]
        simp
      · rw [if_neg hmem]
        rw [List.mem_cons]
        have hrec := ih (lowerStr t :: sc) (fun u hu => hl u (List.mem_cons_of_mem _ hu))
        rw [hrec]
        simp only [List.mem_cons]
        constructor
        · rintro (h | ⟨h1, h2⟩)
          · exact absurd h (by simp)
          · exact ⟨Or.inr h1, fun hc => h2 (Or.inr hc)⟩
        · rintro ⟨h1, h2⟩
          cases h1 with
          | inl h => exact absurd h (by simp)
          | inr h =>
            exact Or.inr ⟨h, fun hc => by
              cases hc with
              | inl hc => exact hk hc.symm
              | inr hc => exact h2 hc⟩

/-- The deduplication loop emits at most one `none` entry. -/
lemma dedupLoop_none_count (l : List (Option String)) (sc : List String)
    (hl : ∀ t, some t ∈ l → lowerStr t ≠ "") :
    (dedupLoop l sc).countP (fun c => decide (c = none)) ≤ 1 := by
  induction l generalizing sc with
  | nil => simp [dedupLoop]
  | cons c rest ih =>
    cases c with
    | none =>
      simp only [dedupLoop, lowerOpt]
      by_cases hmem : "" ∈ sc
      · rw [if_pos hmem]
        exact ih sc (fun t ht => hl t (List.mem_cons_of_mem _ ht))
      · rw [if_neg hmem]
        rw [List.countP_cons]
        have hzero : (dedupLoop rest ("" :: sc)).countP (fun c => decide (c = none)) = 0 := by
          rw [List.countP_eq_zero]
          intro a ha
          simp only [decide_eq_true_eq]
          intro hc
          subst hc
          have := (dedupLoop_none_mem rest ("" :: sc)
            (fun t ht => hl t (List.mem_cons_of_mem _ ht))).mp ha
          exact this.2 (List.mem_cons_self _ _)
        simp [hzero]
    | some t =>
      simp only [dedupLoop, lowerOpt]
      by_cases hmem : lowerStr t ∈ sc
      · rw [if_pos hmem]
        exact ih sc (fun u hu => hl u (List.mem_cons_of_mem _ hu))
      · rw [if_neg hmem]
        rw [List.countP_cons]
        have : (decide ((some t : Option String) = none)) = false := by simp
        rw [this]
        simpa using ih (lowerStr t :: sc) (fun u hu => hl u (List.mem_cons_of_mem _ hu))

/-! ## Claim theorems -/

/-- C1: For every student whose trimmed Student ID has an entry in the
session's override mapping, `best_fit` returns exactly the override's
(University, Course) values, whitespace-trimmed, regardless of the
student's scores and choices (both universally quantified and unused),
with no eligibility check and no catalogue scan. -/
theorem spec_C1 (overrides : List (String × Override)) (unis : List University)
    (sid : String) (scores : List (String × ℚ)) (choices : List (Option String))
    (ov : Override) (u c : String)
    (hov : alookup overrides (pyStrip sid) = some ov)
    (hu : ov.university = some u) (hc : ov.course = some c) :
    best_fit overrides unis sid scores choices = (pyStrip u, pyStrip c) := by
  simp [best_fit, hov, hu, hc, normalize_name]

/-- C9: For every student whose trimmed ID has an override entry lacking
the "University" (resp. "Course") key, `best_fit` returns the literal
string "Manual Override" as that component, not an error and not a
rule-based result. -/
theorem spec_C9 (overrides : List (String × Override)) (unis : List University)
    (sid : String) (scores : List (String × ℚ)) (choices : List (Option String))
    (ov : Override)
    (hov : alookup overrides (pyStrip sid) = some ov) :
    (ov.university = none →
      (best_fit overrides unis sid scores choices).1 = "Manual Override")
    ∧ (ov.course = none →
      (best_fit overrides unis sid scores choices).2 = "Manual Override") := by
  constructor
  · intro hu
    simp only [best_fit, hov, hu, Option.getD_none]
    show normalize_name "Manual Override" = "Manual Override"
    decide
  · intro hc
    simp only [best_fit, hov, hc, Option.getD_none]
    show normalize_name "Manual Override" = "Manual Override"
    decide

/-- C2: For every non-overridden student, `best_fit` realizes the
spec's choice-priority scan: if scanning the choices in declared order —
universities and courses in catalogue order, matching names
case-insensitively and checking eligibility — yields a hit, `best_fit`
returns exactly that hit (so no later choice and no fallback applies). -/
theorem spec_C2 (overrides : List (String × Override)) (unis : List University)
    (sid : String) (scores : List (String × ℚ)) (chs : List String)
    (pr : String × String)
    (hov : alookup overrides (pyStrip sid) = none)
    (hscan : choicePriorityScan unis scores chs = some pr) :
    best_fit overrides unis sid scores (chs.map Option.some) = pr := by
  have hloop : scanList (fun ch => scan_courses unis scores (some [ch])) (chs.map Option.some)
      = choicePriorityScan unis scores chs := by
    rw [scanList_map]
    exact scanList_congr _ _ chs (fun ch _ => scan_courses_single unis scores ch)
  simp [best_fit, hov, hloop, hscan]

/-- C3: For every non-overridden student with no eligible name-matching
course for any choice, `best_fit` returns the first eligible course of the
unfiltered catalogue scan, and the sentinel ("Not Allocated", "N/A") when
nothing in the catalogue is eligible. -/
theorem spec_C3 (overrides : List (String × Override)) (unis : List University)
    (sid : String) (scores : List (String × ℚ)) (chs : List String)
    (hov : alookup overrides (pyStrip sid) = none)
    (hscan : choicePriorityScan unis scores chs = none) :
    best_fit overrides unis sid scores (chs.map Option.some)
      = (fallbackScan unis scores).getD ("Not Allocated", "N/A") := by
  have hloop : scanList (fun ch => scan_courses unis scores (some [ch])) (chs.map Option.some)
      = choicePriorityScan unis scores chs := by
    rw [scanList_map]
    exact scanList_congr _ _ chs (fun ch _ => scan_courses_single unis scores ch)
  cases hf : fallbackScan unis scores with
  | none => simp [best_fit, hov, hloop, hscan, scan_courses_none, hf]
  | some hit => simp [best_fit, hov, hloop, hscan, scan_courses_none, hf]

/-- C4: `is_eligible_for_course` holds iff (1) any `"aggregate"` minimum
is met by the computed aggregate, (2) every non-`"aggregate"` minimum is
met by the subject score (0 when absent), and (3) every maximum bounds the
subject score (0 when absent); consequently a course with no min/max
entries is eligible for every student. -/
theorem spec_C4 (scores : List (String × ℚ)) (course : Course) :
    (is_eligible_for_course scores course = true ↔
      ((∀ m, alookup course.min_scores "aggregate" = some m → aggregate scores ≥ m)
        ∧ (∀ p ∈ course.min_scores, p.1 ≠ "aggregate" → dictGetD scores p.1 ≥ p.2)
        ∧ (∀ p ∈ course.max_scores, dictGetD scores p.1 ≤ p.2)))
    ∧ (course.min_scores = [] → course.max_scores = [] →
        is_eligible_for_course scores course = true) := by
  constructor
  · unfold is_eligible_for_course
    cases hagg : alookup course.min_scores "aggregate" with
    | none =>
      simp only [hagg, Bool.true_and, Bool.and_eq_true, List.all_eq_true,
        Bool.or_eq_true, Bool.not_eq_true', decide_eq_true_eq, decide_eq_false_iff_not,
        not_lt, ge_iff_le, gt_iff_lt]
      constructor
      · rintro ⟨h1, h2⟩
        refine ⟨fun m hm => absurd hm (by simp), fun p hp hpne => ?_, fun p hp => h2 p hp⟩
        rcases h1 p hp with h | h
        · exact absurd h hpne
        · exact h
      · rintro ⟨_, h2, h3⟩
        refine ⟨fun p hp => ?_, fun p hp => h3 p hp⟩
        by_cases hpa : p.1 = "aggregate"
        · exact Or.inl hpa
        · exact Or.inr (h2 p hp hpa)
    | some m =>
      simp only [hagg, Bool.and_eq_true, Bool.not_eq_true', decide_eq_false_iff_not,
        not_lt, List.all_eq_true, Bool.or_eq_true, Bool.not_eq_true',
        decide_eq_true_eq, decide_eq_false_iff_not, ge_iff_le, gt_iff_lt]
      constructor
      · rintro ⟨⟨hm, h1⟩, h2⟩
        refine ⟨fun m' hm' => ?_, fun p hp hpne => ?_, fun p hp => h2 p hp⟩
        · injection hm' with h
          subst h
          exact hm
        · rcases h1 p hp with h | h
          · exact absurd h hpne
          · exact h
      · rintro ⟨hm, h2, h3⟩
        refine ⟨⟨hm m rfl, fun p hp => ?_⟩, fun p hp => h3 p hp⟩
        by_cases hpa : p.1 = "aggregate"
        · exact Or.inl hpa
        · exact Or.inr (h2 p hp hpa)
  · intro h1 h2
    simp [is_eligible_for_course, h1, h2, alookup]

/-- The course with the `"aggregate"`-keyed entries of `max_scores`
removed (used to state that such entries have no effect). -/
def dropAggregateMax (course : Course) : Course :=
  { course with max_scores := course.max_scores.filter (fun p => decide (p.1 ≠ "aggregate")) }

lemma all_filter_eq {α : Type} (l : List α) (q check : α → Bool)
    (h : ∀ a ∈ l, q a = false → check a = true) :
    l.all check = (l.filter q).all check := by
  induction l with
  | nil => rfl
  | cons a l ih =>
    cases hq : q a with
    | true =>
      rw [List.filter_cons_of_pos hq, List.all_cons, List.all_cons,
        ih (fun x hx => h x (List.mem_cons_of_mem _ hx))]
    | false =>
      rw [List.filter_cons_of_neg (by simp [hq]), List.all_cons,
        h a (List.mem_cons_self _ _) hq, Bool.true_and,
        ih (fun x hx => h x (List.mem_cons_of_mem _ hx))]

lemma extract_scores_aggregate_key (cells : String → Option ℚ) :
    alookup (extract_scores cells) "aggregate" = none := by
  unfold extract_scores
  rw [alookup_graph (fun subj => (cells subj).getD 0) SUBJECTS "aggregate",
    if_neg (by decide)]

/-- C10: a `max_scores` entry keyed `"aggregate"` is compared against the
score of a literal subject named "aggregate" — absent from every
normalizer-produced scores dict, hence read as `0.0` — so it makes the
student ineligible exactly when the bound is negative, and otherwise has
no effect on eligibility. -/
theorem spec_C10 (cells : String → Option ℚ) (course : Course) :
    alookup (extract_scores cells) "aggregate" = none
    ∧ ((∃ m, ("aggregate", m) ∈ course.max_scores ∧ m < 0) →
        is_eligible_for_course (extract_scores cells) course = false)
    ∧ ((∀ m, ("aggregate", m) ∈ course.max_scores → 0 ≤ m) →
        is_eligible_for_course (extract_scores cells) course
          = is_eligible_for_course (extract_scores cells) (dropAggregateMax course)) := by
  have hget : dictGetD (extract_scores cells) "aggregate" = 0 := by
    unfold dictGetD
    rw [extract_scores_aggregate_key]
    rfl
  refine ⟨extract_scores_aggregate_key cells, ?_, ?_⟩
  · rintro ⟨m, hmem, hneg⟩
    have hmax : course.max_scores.all
        (fun p => !(decide (dictGetD (extract_scores cells) p.1 > p.2))) = false := by
      rw [Bool.eq_false_iff]
      intro hall
      rw [List.all_eq_true] at hall
      have := hall ("aggregate", m) hmem
      simp only [hget, Bool.not_eq_true', decide_eq_false_iff_not, gt_iff_lt, not_lt] at this
      exact absurd hneg (not_lt.mpr this)
    unfold is_eligible_for_course
    rw [hmax, Bool.and_false]
  · intro hnonneg
    unfold is_eligible_for_course dropAggregateMax
    simp only
    rw [all_filter_eq course.max_scores (fun p => decide (p.1 ≠ "aggregate"))
      (fun p => !(decide (dictGetD (extract_scores cells) p.1 > p.2)))
      (fun p hp hpq => by
        simp only [decide_eq_false_iff_not, not_not] at hpq
        have hval : dictGetD (extract_scores cells) p.1 = 0 := by
          rw [hpq]
          exact hget
        have hm : 0 ≤ p.2 := hnonneg p.2 (by
          have : p = ("aggregate", p.2) := by
            cases p with
            | mk a b => simp [hpq] at *; exact hpq
          rw [← this]
          exact hp)
        simp [hval, not_lt.mpr hm])]

/-- C6 counterexample: the claim says blank slots are dropped entirely,
e.g. `["", "Law", "Law"]` normalizes to `["Law"]`; the code instead keeps
the first blank present slot as a `None` entry. -/
theorem spec_C6_counterexample :
    collect_choices [some "", some "Law", some "Law"] ≠ [some "Law"] := by
  decide

/-- C6 (amended): missing (NA) slots are dropped and the non-blank values
are deduplicated case-insensitively keeping the first occurrence and its
original casing in order; but a blank present slot is not dropped — the
first one survives as a single `None` entry (at its position), later
blanks deduplicating against it under the empty key.  In particular
`["", "Law", "Law"]` yields `[None, "Law"]`, while
`["Law", "law", "Medicine"]` yields `["Law", "Medicine"]` as the original
claim states. -/
theorem spec_C6 :
    (∀ cells : List (Option String),
      (collect_choices cells).filterMap id = specNormalizeChoices cells
      ∧ (none ∈ collect_choices cells ↔ ∃ v, some v ∈ cells ∧ pyStrip v = "")
      ∧ (collect_choices cells).countP (fun c => decide (c = none)) ≤ 1)
    ∧ collect_choices [some "", some "Law", some "Law"] = [none, some "Law"]
    ∧ collect_choices [some "Law", some "law", some "Medicine"]
        = [some "Law", some "Medicine"] := by
  refine ⟨fun cells => ⟨?_, ?_, ?_⟩, by decide, by decide⟩
  · unfold collect_choices specNormalizeChoices
    rw [dedupLoop_filterMap _ [] [] (collect_input_keys cells) (by simp)]
    congr 1
    rw [List.filterMap_filterMap]
    congr 1
    funext c
    cases c <;> rfl
  · unfold collect_choices
    rw [dedupLoop_none_mem _ [] (collect_input_keys cells)]
    simp only [List.not_mem_nil, not_false_eq_true, and_true]
    exact collect_input_none cells
  · exact dedupLoop_none_count _ [] (collect_input_keys cells)

lemma dictGetD_extract (cells : String → Option ℚ) (subj : String) (h : subj ∈ SUBJECTS) :
    dictGetD (extract_scores cells) subj = (cells subj).getD 0 := by
  unfold dictGetD extract_scores
  rw [alookup_graph (fun s => (cells s).getD 0) SUBJECTS subj, if_pos h]
  rfl

/-- The aggregate of a normalizer-produced scores dict is the rounded sum
of the per-subject cell values (0 for missing cells). -/
lemma aggregate_extract (cells : String → Option ℚ) :
    aggregate (extract_scores cells)
      = round2 ((SUBJECTS.map (fun subj => (cells subj).getD 0)).sum) := by
  unfold aggregate
  rw [qsum_eq]
  have hmap : SUBJECTS.map (fun s => dictGetD (extract_scores cells) s)
      = SUBJECTS.map (fun subj => (cells subj).getD 0) :=
    List.map_congr_left (fun s hs => dictGetD_extract cells s hs)
  rw [hmap]

/-- A successful `allocate` call implies no required column was missing,
and its result is the row-loop image of the roster. -/
lemma allocate_ok (s : Session) (roster : Roster) (uniData : List University)
    (ov : Option (List (String × Override))) (results : List ResultRow)
    (h : (allocate s roster uniData ov).2 = Except.ok results) :
    missingCols roster = [] ∧
    results = roster.rows.map
      (processRow (loadUniversities uniData) (ov.getD []) (remappedCols roster)) := by
  by_cases hm : missingCols roster = []
  · refine ⟨hm, ?_⟩
    simp only [allocate, hm, if_pos] at h
    cases h
    rfl
  · simp [allocate, hm] at h

/-- C5: every result row's Aggregate equals the sum of that row's scores
over the 13-subject universe, rounded to 2 decimal places, with missing,
blank or non-numeric subject values contributing 0; this holds for every
row produced by a successful `allocate`. -/
theorem spec_C5 (s : Session) (roster : Roster) (uniData : List University)
    (ov : Option (List (String × Override))) (results : List ResultRow)
    (h : (allocate s roster uniData ov).2 = Except.ok results) :
    results.length = roster.rows.length ∧
    ∀ i (hi : i < results.length) (hr : i < roster.rows.length),
      (results.get ⟨i, hi⟩).aggregate
        = round2 ((SUBJECTS.map
            (fun subj => ((roster.rows.get ⟨i, hr⟩).subjectCells subj).getD 0)).sum) := by
  obtain ⟨hm, he⟩ := allocate_ok s roster uniData ov results h
  subst he
  constructor
  · exact List.length_map _ _
  · intro i hi hr
    rw [List.get_eq_getElem, List.get_eq_getElem, List.getElem_map]
    exact aggregate_extract (roster.rows[i]).subjectCells

/-- C7: when any of the five required columns is absent after alias
resolution, `allocate` fails with a single error naming exactly the
missing required columns, and the stored result set is unchanged (no
partial results). -/
theorem spec_C7 (s : Session) (roster : Roster) (uniData : List University)
    (ov : Option (List (String × Override)))
    (h : missingCols roster ≠ []) :
    (allocate s roster uniData ov).2 = Except.error (missingCols roster)
    ∧ (∀ c, c ∈ missingCols roster ↔ (c ∈ CORE_REQUIRED ∧ c ∉ remappedCols roster))
    ∧ (allocate s roster uniData ov).1.allocations_df = s.allocations_df := by
  refine ⟨?_, ?_, ?_⟩
  · simp [allocate, h]
  · intro c
    unfold missingCols
    rw [List.mem_filter]
    simp
  · simp [allocate, h]

/-- C8: the allocation pass is a deterministic pure function of
(roster, catalogue, overrides) — the outcome does not depend on the prior
session state, re-running on the updated session reproduces it, and a
successful run yields one row per input student in input row order. -/
theorem spec_C8 (s₁ s₂ : Session) (roster : Roster) (uniData : List University)
    (ov : Option (List (String × Override))) :
    (allocate s₁ roster uniData ov).2 = (allocate s₂ roster uniData ov).2
    ∧ (allocate (allocate s₁ roster uniData ov).1 roster uniData ov).2
        = (allocate s₁ roster uniData ov).2
    ∧ ∀ results, (allocate s₁ roster uniData ov).2 = Except.ok results →
        results.length = roster.rows.length
        ∧ ∀ i (hi : i < results.length) (hr : i < roster.rows.length),
            (results.get ⟨i, hi⟩).studentID
              = pyStrip ((roster.rows.get ⟨i, hr⟩).studentID) := by
  refine ⟨?_, ?_, ?_⟩
  · by_cases hm : missingCols roster = []
    · simp [allocate, hm]
    · simp [allocate, hm]
  · by_cases hm : missingCols roster = []
    · simp [allocate, hm]
    · simp [allocate, hm]
  · intro results h
    obtain ⟨hm, he⟩ := allocate_ok s₁ roster uniData ov results h
    subst he
    constructor
    · exact List.length_map _ _
    · intro i hi hr
      rw [List.get_eq_getElem, List.get_eq_getElem, List.getElem_map]
      rfl

/-! ## Concrete witness data -/

/-- A catalogue with one university "A" offering "Law" with an aggregate
minimum of 300 (the spec's scenario catalogue). -/
def catalog1 : List University := [⟨"A", [⟨"Law", [("aggregate", 300)], []⟩]⟩]

/-- Scores giving aggregate 320. -/
def scores320 : List (String × ℚ) := [("English", 320)]

/-- Scores giving aggregate 250. -/
def scores250 : List (String × ℚ) := [("English", 250)]

/-- An override entry with both keys present (untrimmed values). -/
def ov1 : Override := ⟨some " X University ", some " Biology "⟩

/-- An override entry with both keys absent. -/
def ovEmpty : Override := ⟨none, none⟩

/-- A roster row: student " S1 ", English 320, choices Medicine then Law. -/
def row1 : Row :=
  { studentID := " S1 ", firstName := "Ann", lastName := "Bol", gender := "F"
    sectionName := "A", subjectCells := fun s => if s = "English" then some 320 else none
    choice1 := some "Medicine", choice2 := some "Law", choice3 := none }

/-- A roster with all required columns (plus English and two choices). -/
def roster0 : Roster :=
  { columns := ["Student ID", "FirstName", "LastName", "Gender", "Section",
      "English", "Choice 1", "Choice 2"]
    rows := [row1] }

/-- A roster whose Gender column is missing. -/
def rosterM : Roster :=
  { columns := ["Student ID", "FirstName", "LastName", "Section"], rows := [] }

/-- A fresh session. -/
def sess0 : Session := { universities := [], overrides := [], allocations_df := none }

/-- A distinct prior session state (stale catalogue, overrides, results). -/
def sessB : Session :=
  { universities := catalog1, overrides := [("Z9", ovEmpty)], allocations_df := some [] }

/-- The untrimmed catalogue file contents fed to `allocate`. -/
def uniData0 : List University := [⟨" A ", [⟨" Law ", [("aggregate", 300)], []⟩]⟩]

/-- The result rows of the successful `allocate` run on `roster0`. -/
def results0 : List ResultRow :=
  roster0.rows.map (processRow (loadUniversities uniData0) [] (remappedCols roster0))

/-- A course with a negative `"aggregate"` maximum. -/
def courseNegAgg : Course := ⟨"C", [], [("aggregate", mkRat (-1) 1)]⟩

/-- Concrete subject cells: Physics 85, all else missing. -/
def cellsW : String → Option ℚ := fun s => if s = "Physics" then some 85 else none

/-! ## Witnesses -/

/-- C1 witness: override for "S1" forces ("X University", "Biology")
(trimmed) even with empty scores and a "Law" choice. -/
theorem spec_C1_witness :
    best_fit [("S1", ov1)] catalog1 "S1" [] [some "Law"]
      = ("X University", "Biology") :=
  (spec_C1 [("S1", ov1)] catalog1 "S1" [] [some "Law"] ov1
    " X University " " Biology " (by decide) rfl rfl).trans (by decide)

/-- C2 witness: aggregate 320, Choice 1 "Medicine" (not in the catalogue),
Choice 2 "Law" (eligible): the match lands on Choice 2. -/
theorem spec_C2_witness :
    best_fit [] catalog1 "S1" scores320 [some "Medicine", some "Law"] = ("A", "Law") :=
  spec_C2 [] catalog1 "S1" scores320 ["Medicine", "Law"] ("A", "Law") rfl (by decide)

/-- C3 witness: aggregate 250 and choice "Law" (ineligible): the fallback
scan runs, nothing else is eligible, and the sentinel is returned. -/
theorem spec_C3_witness :
    best_fit [] catalog1 "S2" scores250 [some "Law"]
        = (fallbackScan catalog1 scores250).getD ("Not Allocated", "N/A")
    ∧ (fallbackScan catalog1 scores250).getD ("Not Allocated", "N/A")
        = ("Not Allocated", "N/A") :=
  ⟨spec_C3 [] catalog1 "S2" scores250 ["Law"] rfl (by decide), by decide⟩

/-- C4 witness: a course with no min/max entries is eligible for a student
with no scores. -/
theorem spec_C4_witness :
    is_eligible_for_course [] ⟨"Open", [], []⟩ = true :=
  (spec_C4 [] ⟨"Open", [], []⟩).2 rfl rfl

/-- C5 witness: the successful run on `roster0` yields a row whose
Aggregate is the rounded subject sum of the input row. -/
theorem spec_C5_witness :
    (allocate sess0 roster0 uniData0 none).2 = Except.ok results0
    ∧ (results0.get ⟨0, by decide⟩).aggregate
        = round2 ((SUBJECTS.map
            (fun subj => ((roster0.rows.get ⟨0, by decide⟩).subjectCells subj).getD 0)).sum) :=
  ⟨rfl, (spec_C5 sess0 roster0 uniData0 none results0 rfl).2 0 (by decide) (by decide)⟩

/-- C6 witness: on the no-blank example the code's choice list carries
exactly the spec's normalization, which is ["Law", "Medicine"]. -/
theorem spec_C6_witness :
    (collect_choices [some "Law", some "law", some "Medicine"]).filterMap id
        = specNormalizeChoices [some "Law", some "law", some "Medicine"]
    ∧ specNormalizeChoices [some "Law", some "law", some "Medicine"]
        = ["Law", "Medicine"] :=
  ⟨(spec_C6.1 [some "Law", some "law", some "Medicine"]).1, by decide⟩

/-- C7 witness: with the Gender column missing, `allocate` fails naming
exactly ["Gender"] and stores no results. -/
theorem spec_C7_witness :
    (allocate sess0 rosterM uniData0 none).2 = Except.error ["Gender"]
    ∧ (allocate sess0 rosterM uniData0 none).1.allocations_df = sess0.allocations_df :=
  ⟨((spec_C7 sess0 rosterM uniData0 none (by decide)).1).trans
      (congrArg Except.error (by decide)),
   (spec_C7 sess0 rosterM uniData0 none (by decide)).2.2⟩

/-- C8 witness: two sessions with different prior state produce the same
outcome on identical inputs, with one result row for the one input row. -/
theorem spec_C8_witness :
    (allocate sess0 roster0 uniData0 none).2 = (allocate sessB roster0 uniData0 none).2
    ∧ results0.length = roster0.rows.length :=
  ⟨(spec_C8 sess0 sessB roster0 uniData0 none).1,
   ((spec_C8 sess0 sessB roster0 uniData0 none).2.2 results0 rfl).1⟩

/-- C9 witness: an override entry with both keys missing yields
("Manual Override", "Manual Override"). -/
theorem spec_C9_witness :
    (best_fit [("S9", ovEmpty)] catalog1 "S9" [] []).1 = "Manual Override"
    ∧ (best_fit [("S9", ovEmpty)] catalog1 "S9" [] []).2 = "Manual Override" :=
  ⟨(spec_C9 [("S9", ovEmpty)] catalog1 "S9" [] [] ovEmpty (by decide)).1 rfl,
   (spec_C9 [("S9", ovEmpty)] catalog1 "S9" [] [] ovEmpty (by decide)).2 rfl⟩

/-- C10 witness: a negative `"aggregate"` maximum makes a
normalizer-scored student (Physics 85, aggregate 85) ineligible. -/
theorem spec_C10_witness :
    is_eligible_for_course (extract_scores cellsW) courseNegAgg = false :=
  (spec_C10 cellsW courseNegAgg).2.1 ⟨mkRat (-1) 1, by decide, by decide⟩
